import Mathlib

/-!
# Verification of `download.py` (Polygon 1-minute intraday downloader)

Shallow embedding of the repository's single source file `src/download.py`
and proofs of the specified properties.

Modelling conventions:
* Calendar dates are days since the Unix epoch (1970-01-01), as `Nat`.
  1970-01-01 was a Thursday, so Python's `date.weekday()` (Monday = 0) is
  `(d + 3) % 7`.
* Wall-clock time (`time.time()` values) is modelled as `ℚ`; `time.sleep(x)`
  advances the clock by exactly `x`, and all other operations take zero time.
* A pandas tz-aware timestamp is its absolute instant (milliseconds since the
  Unix epoch) together with a zone name; `tz_convert` keeps the instant and
  changes the zone, and ordering compares instants — exactly pandas semantics.
* Numeric bar fields (open/high/low/close/volume) are only carried, never
  computed with, so they are modelled as `Int`.
-/

/-! ## Calendar dates and the trading-day sequencer (`daterange`, lines 62-68) -/

/-- Python `Timestamp.weekday()`: Monday = 0 … Sunday = 6, for a date given as
days since 1970-01-01 (a Thursday). -/
def weekday (d : Nat) : Nat := (d + 3) % 7

/-- One pandas `BDay()` step: from a business day, the next business day;
from a weekend day, roll forward to the coming Monday.
Mon–Thu step +1, Fri +3, Sat +2, Sun +1. -/
def bdayStep (d : Nat) : Nat :=
  if weekday d = 4 then d + 3
  else if weekday d = 5 then d + 2
  else d + 1

theorem lt_bdayStep (d : Nat) : d < bdayStep d := by
  unfold bdayStep
  split <;> [omega; split <;> omega]

/-- The `while cur <= end` loop of `daterange` (lines 65-68), with explicit
fuel so that it computes by structural recursion; `bdayStep` advances by at
least one day, so `stop + 1 - cur` units of fuel are exact
(`daterangeDates_eq` below recovers the loop's recurrence fuel-free). -/
def daterangeLoop : Nat → Nat → Nat → List Nat
  | 0, _, _ => []
  | fuel + 1, cur, stop =>
    if cur ≤ stop then
      (if weekday cur < 5 then [cur] else []) ++ daterangeLoop fuel (bdayStep cur) stop
    else []

/-- `daterange(start, end)` from `download.py` lines 62-68, on epoch-day
numbers: while `cur <= end`, yield `cur` when it is a weekday, then advance
by one business day. -/
def daterangeDates (start stop : Nat) : List Nat :=
  daterangeLoop (stop + 1 - start) start stop

theorem daterangeLoop_of_gt (fuel cur stop : Nat) (h : stop < cur) :
    daterangeLoop fuel cur stop = [] := by
  cases fuel with
  | zero => rfl
  | succ f => simp [daterangeLoop, Nat.not_le.mpr h]

theorem daterangeLoop_fuel_irrel (f1 : Nat) :
    ∀ f2 cur stop : Nat, stop + 1 - cur ≤ f1 → stop + 1 - cur ≤ f2 →
      daterangeLoop f1 cur stop = daterangeLoop f2 cur stop := by
  induction f1 with
  | zero =>
    intro f2 cur stop h1 _
    have hlt : stop < cur := by omega
    rw [daterangeLoop_of_gt _ _ _ hlt, daterangeLoop_of_gt _ _ _ hlt]
  | succ f ih =>
    intro f2 cur stop h1 h2
    cases f2 with
    | zero =>
      have hlt : stop < cur := by omega
      rw [daterangeLoop_of_gt _ _ _ hlt, daterangeLoop_of_gt _ _ _ hlt]
    | succ g =>
      by_cases hle : cur ≤ stop
      · have hstep := lt_bdayStep cur
        simp only [daterangeLoop, if_pos hle]
        rw [ih g (bdayStep cur) stop (by omega) (by omega)]
      · simp [daterangeLoop, hle]

/-- The loop recurrence of `daterange`, fuel-free: `daterangeDates` satisfies
exactly the `while` loop's unfolding. -/
theorem daterangeDates_eq (start stop : Nat) :
    daterangeDates start stop =
      if start ≤ stop then
        (if weekday start < 5 then [start] else []) ++ daterangeDates (bdayStep start) stop
      else [] := by
  by_cases h : start ≤ stop
  · have h1 : stop + 1 - start = (stop - start) + 1 := by omega
    have hstep := lt_bdayStep start
    simp only [daterangeDates, h1, daterangeLoop, if_pos h]
    rw [daterangeLoop_fuel_irrel (stop - start) (stop + 1 - bdayStep start)
      (bdayStep start) stop (by omega) (by omega)]
  · simp [daterangeDates, daterangeLoop_of_gt _ _ _ (by omega : stop < start), h]

/-- Gregorian civil date `(year, month, day)` of an epoch-day number
(Hinnant's `civil_from_days`, valid for all `z ≥ 0`). -/
def civilFromDays (z0 : Nat) : Nat × Nat × Nat :=
  let z := z0 + 719468
  let era := z / 146097
  let doe := z % 146097
  let yoe := (doe - doe / 1460 + doe / 36524 - doe / 146096) / 365
  let y := yoe + era * 400
  let doy := doe - (365 * yoe + yoe / 4 - yoe / 100)
  let mp := (5 * doy + 2) / 153
  let dayOfMonth := doy - (153 * mp + 2) / 5 + 1
  let m := if mp < 10 then mp + 3 else mp - 9
  (if m ≤ 2 then y + 1 else y, m, dayOfMonth)

/-- Zero-pad a number to two digits, as `strftime` does for `%m` and `%d`. -/
def pad2 (n : Nat) : String :=
  if n < 10 then "0" ++ toString n else toString n

/-- `cur.strftime("%Y-%m-%d")` (line 67) on an epoch-day number. -/
def fmtDay (d : Nat) : String :=
  let c := civilFromDays d
  toString c.1 ++ "-" ++ pad2 c.2.1 ++ "-" ++ pad2 c.2.2

/-- The trading-day sequence exactly as the generator yields it: formatted
`YYYY-MM-DD` strings. -/
def daterange (start stop : Nat) : List String :=
  (daterangeDates start stop).map fmtDay

example : fmtDay 0 = "1970-01-01" := by decide
example : fmtDay 4 = "1970-01-05" := by decide
example : daterangeDates 4 11 = [4, 5, 6, 7, 8, 11] := by decide

/-! ## The day fetcher (`fetch_day`, lines 36-60) -/

/-- One raw record of the provider's `results` list: millisecond epoch
timestamp `t` and the five numeric fields `o`,`h`,`l`,`c`,`v`. -/
structure RawRecord where
  t : Nat
  o : Int
  h : Int
  l : Int
  c : Int
  v : Int
deriving DecidableEq

/-- The JSON body of a provider response: `resultsCount` (absent or a count)
and the `results` list (absent or present). -/
structure PolyJson where
  resultsCount : Option Nat
  results : Option (List RawRecord)
deriving DecidableEq

/-- An HTTP response as `requests.get` returns it: status code plus parsed
JSON body. -/
structure HttpResponse where
  status : Nat
  body : PolyJson
deriving DecidableEq

/-- Errors `fetch_day` can raise: `requests.HTTPError` from
`raise_for_status()` (status ≥ 400), or a `KeyError` from `js["results"]`. -/
inductive FetchError where
  | httpError (status : Nat)
  | keyError
deriving DecidableEq

/-- A pandas tz-aware timestamp: the absolute instant in milliseconds since
the Unix epoch, plus the zone name. `tz_convert` preserves the instant;
comparison of tz-aware timestamps is by instant. -/
structure TzTimestamp where
  instantMs : Nat
  zone : String
deriving DecidableEq

/-- `pd.to_datetime(t, unit="ms", utc=True)` (line 54). -/
def to_datetime_ms_utc (t : Nat) : TzTimestamp := ⟨t, "UTC"⟩

/-- `.dt.tz_convert(z)` (line 55): same instant, new zone. -/
def tz_convert (ts : TzTimestamp) (z : String) : TzTimestamp := ⟨ts.instantMs, z⟩

/-- A normalized bar after the `rename` of line 57-59: the five numeric
fields under their canonical lowercase names. -/
structure Bar where
  «open» : Int
  high : Int
  low : Int
  close : Int
  volume : Int
deriving DecidableEq

/-- One row of the returned frame after `set_index("datetime")`: the
timezone-converted timestamp as the index key, paired with the bar. -/
abbrev DayRow := TzTimestamp × Bar

/-- The frame `fetch_day` returns: rows in provider order, indexed by
timestamp. -/
abbrev DayResult := List DayRow

/-- Lines 53-60: build the normalized row for one raw record. -/
def normalizeRecord (r : RawRecord) : DayRow :=
  (tz_convert (to_datetime_ms_utc r.t) "America/New_York",
   ⟨r.o, r.h, r.l, r.c, r.v⟩)

/-- `fetch_day` (lines 36-60) as a function of the HTTP response the network
returned: `raise_for_status()`, then the `resultsCount` guard of line 51
(empty frame when the key is absent or zero), then normalization of
`js["results"]`. -/
def fetch_day (r : HttpResponse) : Except FetchError DayResult :=
  if 400 ≤ r.status then
    .error (.httpError r.status)
  else if r.body.resultsCount.getD 0 = 0 then
    .ok []
  else
    match r.body.results with
    | none => .error .keyError
    | some recs => .ok (recs.map normalizeRecord)

/-! ## The orchestrator (`main`, lines 70-114) -/

/-- `args.ticker.replace(':', '_')` (line 89): Python's `str.replace` with a
one-character pattern replaces every occurrence, i.e. maps characters. -/
def sanitizeTicker (t : String) : String :=
  String.mk (t.data.map fun ch => if ch = ':' then '_' else ch)

/-- The deterministic output path of line 89:
`outdir / f"{ticker.replace(':','_')}_{day}.csv"`. -/
def csvPath (outdir ticker day : String) : String :=
  outdir ++ "/" ++ sanitizeTicker ticker ++ "_" ++ day ++ ".csv"

/-- One dispatched network request (the `requests.get` inside `fetch_day`),
with ghost bookkeeping: the wall-clock time of dispatch, the day requested,
and the rate window (`window_start`, `reqs_in_window`) at the moment of
dispatch, after the gate of lines 95-100 ran. -/
structure CallRec where
  time : ℚ
  day : String
  winStart : ℚ
  cnt : Nat
deriving DecidableEq

/-- One console log line (`print` calls of lines 91, 105, 109, 112). -/
inductive LogLine where
  | skip (path : String)
  | warn (day : String) (e : FetchError)
  | info (day : String)
  | okLine (path : String) (nbars : Nat)
deriving DecidableEq

/-- The orchestrator's state: the two rate-limiter variables of lines 85-86,
the wall clock, the filesystem (set of existing paths), and ghost traces of
`to_csv` writes, dispatched network calls, and log lines. -/
structure OrchState where
  reqs_in_window : Nat
  window_start : ℚ
  now : ℚ
  files : List String
  writes : List String
  calls : List CallRec
  log : List LogLine
deriving DecidableEq

/-- The run's fixed configuration: CLI ticker and output directory, plus the
network environment — the HTTP response the provider returns to the request
for a given day. -/
structure Config where
  ticker : String
  outdir : String
  env : String → HttpResponse

/-- The rate-limit gate, lines 94-100: when the window count has reached 5,
sleep out the remainder of the 60-second window (plus the 0.1 s margin) if
any remains, then start a fresh window. -/
def rate_gate (s : OrchState) : OrchState :=
  if s.reqs_in_window = 5 then
    let delta : ℚ := 60 - (s.now - s.window_start)
    let s1 := if 0 < delta then { s with now := s.now + (delta + 1/10) } else s
    { s1 with window_start := s1.now, reqs_in_window := 0 }
  else s

/-- One iteration of the `for day in daterange(...)` loop, lines 88-114:
skip when the output file exists; otherwise gate, dispatch the request,
and on a raised error warn and continue (note: the `continue` of line 106
skips the `reqs_in_window += 1` of line 114), else write the file when
non-empty and increment the window count. -/
def processDay (cfg : Config) (s : OrchState) (day : String) : OrchState :=
  let path := csvPath cfg.outdir cfg.ticker day
  if path ∈ s.files then
    { s with log := s.log ++ [.skip path] }
  else
    let s1 := rate_gate s
    let s2 : OrchState := { s1 with
      calls := s1.calls ++ [⟨s1.now, day, s1.window_start, s1.reqs_in_window⟩] }
    match fetch_day (cfg.env day) with
    | .error e => { s2 with log := s2.log ++ [.warn day e] }
    | .ok df =>
      let s3 : OrchState :=
        if df.isEmpty then
          { s2 with log := s2.log ++ [.info day] }
        else
          { s2 with files := s2.files ++ [path], writes := s2.writes ++ [path],
                    log := s2.log ++ [.okLine path df.length] }
      { s3 with reqs_in_window := s3.reqs_in_window + 1 }

/-- The orchestrator's day loop as a fold over the day sequence. -/
def runDays (cfg : Config) (s : OrchState) (days : List String) : OrchState :=
  days.foldl (processDay cfg) s

/-- The state at lines 85-86: zero requests in the window, `window_start`
and the clock at the current time `t0`, the filesystem as found. -/
def initState (fs0 : List String) (t0 : ℚ) : OrchState :=
  ⟨0, t0, t0, fs0, [], [], []⟩

/-- `main()` after argument parsing (lines 82-114): run the loop over
`daterange(start, end)` starting from a fresh rate window. -/
def main_run (ticker : String) (start stop : Nat) (outdir : String)
    (env : String → HttpResponse) (fs0 : List String) (t0 : ℚ) : OrchState :=
  runDays ⟨ticker, outdir, env⟩ (initState fs0 t0) (daterange start stop)

/-- A provider environment that always answers HTTP 429 (the rate-limited
response), used in concrete runs below. -/
def env429 : String → HttpResponse := fun _ => ⟨429, ⟨none, none⟩⟩

example :
    (main_run "SPY" 4 11 "." env429 [] 0).calls.map (fun c => c.time) =
      [0, 0, 0, 0, 0, 0] := by decide

example : (main_run "SPY" 4 4 "." env429 [] 0).reqs_in_window = 0 := by decide

/-! ## Helper lemmas about the sequencer -/

theorem daterangeLoop_mem :
    ∀ fuel cur stop d : Nat, d ∈ daterangeLoop fuel cur stop →
      weekday d < 5 ∧ cur ≤ d ∧ d ≤ stop := by
  intro fuel
  induction fuel with
  | zero => intro cur stop d hd; simp [daterangeLoop] at hd
  | succ f ih =>
    intro cur stop d hd
    by_cases hle : cur ≤ stop
    · simp only [daterangeLoop, if_pos hle] at hd
      rcases List.mem_append.mp hd with hd | hd
      · by_cases hw : weekday cur < 5
        · rw [if_pos hw] at hd
          have hdc : d = cur := List.mem_singleton.mp hd
          subst hdc
          exact ⟨hw, Nat.le_refl _, hle⟩
        · rw [if_neg hw] at hd; cases hd
      · obtain ⟨h1, h2, h3⟩ := ih (bdayStep cur) stop d hd
        exact ⟨h1, Nat.le_trans (Nat.le_of_lt (lt_bdayStep cur)) h2, h3⟩
    · simp only [daterangeLoop, if_neg hle] at hd; cases hd

theorem daterangeLoop_chain :
    ∀ fuel cur stop : Nat, List.Chain' (· < ·) (daterangeLoop fuel cur stop) := by
  intro fuel
  induction fuel with
  | zero => intro cur stop; simp [daterangeLoop]
  | succ f ih =>
    intro cur stop
    by_cases hle : cur ≤ stop
    · simp only [daterangeLoop, if_pos hle]
      by_cases hw : weekday cur < 5
      · rw [if_pos hw, List.singleton_append]
        refine List.chain'_cons'.mpr ⟨?_, ih (bdayStep cur) stop⟩
        intro b hb
        have hmem := List.mem_of_mem_head? hb
        have h2 := (daterangeLoop_mem f (bdayStep cur) stop b hmem).2.1
        exact Nat.lt_of_lt_of_le (lt_bdayStep cur) h2
      · rw [if_neg hw, List.nil_append]; exact ih (bdayStep cur) stop
    · simp [daterangeLoop, hle]

/-! ## Claim C4 -/

/-- C4: every day yielded by `daterange` falls on Monday through Friday
(`weekday < 5`), lies within the inclusive bounds `[start, stop]`, and the
yielded days are strictly increasing across the sequence. -/
theorem C4_sequencer_weekday_bounds_increasing (start stop : Nat) :
    (∀ d ∈ daterangeDates start stop, weekday d < 5 ∧ start ≤ d ∧ d ≤ stop) ∧
    List.Chain' (· < ·) (daterangeDates start stop) :=
  ⟨fun d hd => daterangeLoop_mem _ _ _ d hd, daterangeLoop_chain _ _ _⟩

/-! ## Claim C5 -/

/-- C5: when `start > end`, the trading-day sequencer yields the empty
sequence (and, being a total function here, raises no error). -/
theorem C5_sequencer_empty_when_start_gt_end (start stop : Nat)
    (h : stop < start) :
    daterangeDates start stop = [] ∧ daterange start stop = [] := by
  have h1 : daterangeDates start stop = [] := by
    rw [daterangeDates_eq, if_neg (Nat.not_le.mpr h)]
  exact ⟨h1, by simp [daterange, h1]⟩

/-- Witness for C5 at the concrete bounds start = 5, stop = 3. -/
theorem C5_sequencer_empty_when_start_gt_end_witness :
    3 < 5 ∧ (daterangeDates 5 3 = [] ∧ daterange 5 3 = []) :=
  ⟨by decide, C5_sequencer_empty_when_start_gt_end 5 3 (by decide)⟩

/-! ## Claim C10 -/

/-- C10: on a successful HTTP response whose JSON body lacks `resultsCount`
or maps it to 0, `fetch_day` returns the empty frame without inspecting the
`results` list (the body's `results` field is arbitrary, possibly a
non-empty list). -/
theorem C10_results_count_guard (status : Nat) (body : PolyJson)
    (hstat : status < 400)
    (hcount : body.resultsCount = none ∨ body.resultsCount = some 0) :
    fetch_day ⟨status, body⟩ = .ok [] := by
  rcases hcount with h | h <;> simp [fetch_day, h, Nat.not_le.mpr hstat]

/-- Witness for C10: a 200 response whose body lacks `resultsCount` but
carries a non-empty `results` list still yields the empty frame. -/
theorem C10_results_count_guard_witness :
    200 < 400 ∧
    (⟨none, some [⟨0, 1, 2, 3, 4, 5⟩]⟩ : PolyJson).results ≠ none ∧
    fetch_day ⟨200, ⟨none, some [⟨0, 1, 2, 3, 4, 5⟩]⟩⟩ = .ok [] :=
  ⟨by decide, by decide,
    C10_results_count_guard 200 ⟨none, some [⟨0, 1, 2, 3, 4, 5⟩]⟩
      (by decide) (Or.inl rfl)⟩

/-! ## Claim C3 -/

/-- C3: on a successful response with at least one result record (and the
records in the provider's requested ascending-timestamp order), `fetch_day`
normalizes each record: the millisecond epoch timestamp is converted from
UTC to the America/New_York zone (same absolute instant, New York zone
label, exactly pandas `tz_convert`), the five numeric fields are renamed to
lowercase open/high/low/close/volume, and the returned frame is indexed by
the converted timestamp and ordered ascending by timestamp. -/
theorem C3_fetch_day_normalizes (r : HttpResponse) (recs : List RawRecord)
    (hstat : r.status < 400)
    (hcount : r.body.resultsCount.getD 0 ≠ 0)
    (hres : r.body.results = some recs)
    (_hne : recs ≠ [])
    (hsorted : List.Chain' (fun a b : RawRecord => a.t < b.t) recs) :
    fetch_day r = .ok (recs.map fun rec =>
      ((⟨rec.t, "America/New_York"⟩ : TzTimestamp),
       (⟨rec.o, rec.h, rec.l, rec.c, rec.v⟩ : Bar))) ∧
    (∀ row ∈ recs.map normalizeRecord, row.1.zone = "America/New_York") ∧
    List.Chain' (fun a b : DayRow => a.1.instantMs < b.1.instantMs)
      (recs.map normalizeRecord) := by
  refine ⟨?_, ?_, ?_⟩
  · simp [fetch_day, Nat.not_le.mpr hstat, hcount, hres, normalizeRecord,
      tz_convert, to_datetime_ms_utc]
  · intro row hrow
    rcases List.mem_map.mp hrow with ⟨rec, _, hrec⟩
    rw [← hrec]
    rfl
  · rw [List.chain'_map]
    exact hsorted

/-- Witness for C3: a concrete 200 response with two ascending records. -/
theorem C3_fetch_day_normalizes_witness :
    ((200 : Nat) < 400 ∧
      (some 2 : Option Nat).getD 0 ≠ 0 ∧
      ([⟨1000, 10, 20, 5, 15, 100⟩, ⟨2000, 16, 22, 11, 12, 50⟩] :
        List RawRecord) ≠ []) ∧
    fetch_day ⟨200, ⟨some 2,
        some [⟨1000, 10, 20, 5, 15, 100⟩, ⟨2000, 16, 22, 11, 12, 50⟩]⟩⟩ =
      .ok [(⟨1000, "America/New_York"⟩, ⟨10, 20, 5, 15, 100⟩),
           (⟨2000, "America/New_York"⟩, ⟨16, 22, 11, 12, 50⟩)] := by
  refine ⟨⟨by decide, by decide, by decide⟩, ?_⟩
  have h := C3_fetch_day_normalizes
    ⟨200, ⟨some 2, some [⟨1000, 10, 20, 5, 15, 100⟩, ⟨2000, 16, 22, 11, 12, 50⟩]⟩⟩
    [⟨1000, 10, 20, 5, 15, 100⟩, ⟨2000, 16, 22, 11, 12, 50⟩]
    (by decide) (by decide) rfl (by decide)
    (List.chain'_pair.mpr (by decide))
  exact h.1

/-! ## Helper lemmas about the rate gate and one loop iteration -/

@[simp] theorem rate_gate_files (s : OrchState) : (rate_gate s).files = s.files := by
  unfold rate_gate
  split
  · dsimp only
    split <;> rfl
  · rfl

@[simp] theorem rate_gate_writes (s : OrchState) : (rate_gate s).writes = s.writes := by
  unfold rate_gate
  split
  · dsimp only
    split <;> rfl
  · rfl

@[simp] theorem rate_gate_calls (s : OrchState) : (rate_gate s).calls = s.calls := by
  unfold rate_gate
  split
  · dsimp only
    split <;> rfl
  · rfl

@[simp] theorem rate_gate_log (s : OrchState) : (rate_gate s).log = s.log := by
  unfold rate_gate
  split
  · dsimp only
    split <;> rfl
  · rfl

theorem processDay_skip (cfg : Config) (s : OrchState) (day : String)
    (h : csvPath cfg.outdir cfg.ticker day ∈ s.files) :
    processDay cfg s day =
      { s with log := s.log ++ [.skip (csvPath cfg.outdir cfg.ticker day)] } := by
  simp [processDay, h]

theorem processDay_error (cfg : Config) (s : OrchState) (day : String)
    (e : FetchError)
    (h : csvPath cfg.outdir cfg.ticker day ∉ s.files)
    (hfd : fetch_day (cfg.env day) = .error e) :
    processDay cfg s day =
      { rate_gate s with
        calls := s.calls ++ [⟨(rate_gate s).now, day, (rate_gate s).window_start,
          (rate_gate s).reqs_in_window⟩],
        log := s.log ++ [.warn day e] } := by
  simp [processDay, h, hfd]

theorem processDay_ok_empty (cfg : Config) (s : OrchState) (day : String)
    (df : DayResult)
    (h : csvPath cfg.outdir cfg.ticker day ∉ s.files)
    (hfd : fetch_day (cfg.env day) = .ok df) (hdf : df.isEmpty = true) :
    processDay cfg s day =
      { rate_gate s with
        calls := s.calls ++ [⟨(rate_gate s).now, day, (rate_gate s).window_start,
          (rate_gate s).reqs_in_window⟩],
        log := s.log ++ [.info day],
        reqs_in_window := (rate_gate s).reqs_in_window + 1 } := by
  simp [processDay, h, hfd, hdf]

theorem processDay_ok_write (cfg : Config) (s : OrchState) (day : String)
    (df : DayResult)
    (h : csvPath cfg.outdir cfg.ticker day ∉ s.files)
    (hfd : fetch_day (cfg.env day) = .ok df) (hdf : df.isEmpty = false) :
    processDay cfg s day =
      { rate_gate s with
        calls := s.calls ++ [⟨(rate_gate s).now, day, (rate_gate s).window_start,
          (rate_gate s).reqs_in_window⟩],
        files := s.files ++ [csvPath cfg.outdir cfg.ticker day],
        writes := s.writes ++ [csvPath cfg.outdir cfg.ticker day],
        log := s.log ++ [.okLine (csvPath cfg.outdir cfg.ticker day) df.length],
        reqs_in_window := (rate_gate s).reqs_in_window + 1 } := by
  simp [processDay, h, hfd, hdf]

theorem processDay_files_mono (cfg : Config) (s : OrchState) (day : String) :
    ∀ p ∈ s.files, p ∈ (processDay cfg s day).files := by
  intro p hp
  by_cases h : csvPath cfg.outdir cfg.ticker day ∈ s.files
  · rw [processDay_skip cfg s day h]; exact hp
  · cases hfd : fetch_day (cfg.env day) with
    | error e => rw [processDay_error cfg s day e h hfd]; simpa using hp
    | ok df =>
      cases hdf : df.isEmpty with
      | true => rw [processDay_ok_empty cfg s day df h hfd hdf]; simpa using hp
      | false =>
        rw [processDay_ok_write cfg s day df h hfd hdf]
        simpa using Or.inl hp

theorem processDay_calls_shape (cfg : Config) (s : OrchState) (day : String) :
    (processDay cfg s day).calls = s.calls ∨
    ∃ rec : CallRec, rec.day = day ∧
      (processDay cfg s day).calls = s.calls ++ [rec] := by
  by_cases h : csvPath cfg.outdir cfg.ticker day ∈ s.files
  · left; rw [processDay_skip cfg s day h]
  · right
    cases hfd : fetch_day (cfg.env day) with
    | error e =>
      exact ⟨_, rfl, by rw [processDay_error cfg s day e h hfd]⟩
    | ok df =>
      cases hdf : df.isEmpty with
      | true => exact ⟨_, rfl, by rw [processDay_ok_empty cfg s day df h hfd hdf]⟩
      | false => exact ⟨_, rfl, by rw [processDay_ok_write cfg s day df h hfd hdf]⟩

theorem runDays_files_mono (cfg : Config) (days : List String) :
    ∀ s : OrchState, ∀ p ∈ s.files, p ∈ (runDays cfg s days).files := by
  induction days with
  | nil => intro s p hp; exact hp
  | cons d rest ih =>
    intro s p hp
    exact ih (processDay cfg s d) p (processDay_files_mono cfg s d p hp)

theorem runDays_no_new_call_of_file (cfg : Config) (days : List String) :
    ∀ s : OrchState, ∀ day : String,
      csvPath cfg.outdir cfg.ticker day ∈ s.files →
      ∀ c ∈ (runDays cfg s days).calls, c.day = day → c ∈ s.calls := by
  induction days with
  | nil => intro s day _ c hc _; exact hc
  | cons d rest ih =>
    intro s day hmem c hc hcday
    have hmem2 : csvPath cfg.outdir cfg.ticker day ∈ (processDay cfg s d).files :=
      processDay_files_mono cfg s d _ hmem
    have hc2 : c ∈ (processDay cfg s d).calls :=
      ih (processDay cfg s d) day hmem2 c hc hcday
    by_cases hdd : d = day
    · subst hdd
      rwa [processDay_skip cfg s d hmem] at hc2
    · rcases processDay_calls_shape cfg s d with heq | ⟨rec, hrecday, heq⟩
      · rwa [heq] at hc2
      · rw [heq] at hc2
        rcases List.mem_append.mp hc2 with h1 | h1
        · exact h1
        · have hcr : c = rec := List.mem_singleton.mp h1
          exact absurd (hcday ▸ hcr ▸ hrecday) (by rw [hcr, hrecday] at hcday; exact fun _ => hdd hcday)

/-- A provider environment that always answers HTTP 200 with one bar,
used in concrete runs below. -/
def envOK : String → HttpResponse :=
  fun _ => ⟨200, ⟨some 1, some [⟨0, 1, 2, 3, 4, 5⟩]⟩⟩

/-! ## Claim C6 -/

/-- C6: a trading day whose output file already exists when the orchestrator
reaches it causes no network call and no rate-limiter interaction (calls,
window count, window start and clock all unchanged; only a skip is logged);
consequently a second run with identical arguments, started on the
filesystem the first run left behind, performs zero network calls for every
day whose output file exists after the first run. -/
theorem C6_skip_no_call_idempotent
    (cfg : Config) (s : OrchState) (day : String)
    (hmem : csvPath cfg.outdir cfg.ticker day ∈ s.files)
    (ticker : String) (start stop : Nat) (outdir : String)
    (env1 env2 : String → HttpResponse) (fs0 : List String) (t0 t1 : ℚ)
    (dday : String)
    (hfile : csvPath outdir ticker dday ∈
      (main_run ticker start stop outdir env1 fs0 t0).files) :
    ((processDay cfg s day).calls = s.calls ∧
     (processDay cfg s day).reqs_in_window = s.reqs_in_window ∧
     (processDay cfg s day).window_start = s.window_start ∧
     (processDay cfg s day).now = s.now ∧
     (processDay cfg s day).files = s.files ∧
     (processDay cfg s day).log =
       s.log ++ [.skip (csvPath cfg.outdir cfg.ticker day)]) ∧
    (∀ c ∈ (main_run ticker start stop outdir env2
        (main_run ticker start stop outdir env1 fs0 t0).files t1).calls,
      c.day ≠ dday) := by
  constructor
  · rw [processDay_skip cfg s day hmem]
    exact ⟨rfl, rfl, rfl, rfl, rfl, rfl⟩
  · intro c hc hcday
    have h := runDays_no_new_call_of_file ⟨ticker, outdir, env2⟩
      (daterange start stop)
      (initState (main_run ticker start stop outdir env1 fs0 t0).files t1)
      dday hfile c hc hcday
    simp [initState] at h

/-- Witness for C6: a first run with one bar of data writes
`./SPY_1970-01-05.csv`; the second run over the same range makes no call
for that day. -/
theorem C6_skip_no_call_idempotent_witness :
    (csvPath "." "SPY" "1970-01-05" ∈
        (initState [csvPath "." "SPY" "1970-01-05"] 0).files ∧
     csvPath "." "SPY" "1970-01-05" ∈ (main_run "SPY" 4 4 "." envOK [] 0).files) ∧
    (((processDay ⟨"SPY", ".", env429⟩
        (initState [csvPath "." "SPY" "1970-01-05"] 0) "1970-01-05").calls =
          (initState [csvPath "." "SPY" "1970-01-05"] 0).calls ∧
      (processDay ⟨"SPY", ".", env429⟩
        (initState [csvPath "." "SPY" "1970-01-05"] 0) "1970-01-05").reqs_in_window =
          (initState [csvPath "." "SPY" "1970-01-05"] 0).reqs_in_window ∧
      (processDay ⟨"SPY", ".", env429⟩
        (initState [csvPath "." "SPY" "1970-01-05"] 0) "1970-01-05").window_start =
          (initState [csvPath "." "SPY" "1970-01-05"] 0).window_start ∧
      (processDay ⟨"SPY", ".", env429⟩
        (initState [csvPath "." "SPY" "1970-01-05"] 0) "1970-01-05").now =
          (initState [csvPath "." "SPY" "1970-01-05"] 0).now ∧
      (processDay ⟨"SPY", ".", env429⟩
        (initState [csvPath "." "SPY" "1970-01-05"] 0) "1970-01-05").files =
          (initState [csvPath "." "SPY" "1970-01-05"] 0).files ∧
      (processDay ⟨"SPY", ".", env429⟩
        (initState [csvPath "." "SPY" "1970-01-05"] 0) "1970-01-05").log =
          (initState [csvPath "." "SPY" "1970-01-05"] 0).log ++
            [.skip (csvPath "." "SPY" "1970-01-05")]) ∧
     (∀ c ∈ (main_run "SPY" 4 4 "."
          (fun _ => ⟨429, ⟨none, none⟩⟩)
          (main_run "SPY" 4 4 "." envOK [] 0).files 77).calls,
        c.day ≠ "1970-01-05")) :=
  ⟨⟨by decide, by decide⟩,
    C6_skip_no_call_idempotent ⟨"SPY", ".", env429⟩
      (initState [csvPath "." "SPY" "1970-01-05"] 0) "1970-01-05" (by decide)
      "SPY" 4 4 "." envOK (fun _ => ⟨429, ⟨none, none⟩⟩) [] 0 77 "1970-01-05"
      (by decide)⟩

/-! ## Claim C7 -/

theorem runDays_write_inv (cfg : Config) (days : List String) :
    ∀ s : OrchState, ∀ fs0 : List String,
      s.files = fs0 ++ s.writes → (∀ p ∈ s.writes, p ∉ fs0) → s.writes.Nodup →
      ((runDays cfg s days).files = fs0 ++ (runDays cfg s days).writes ∧
       (∀ p ∈ (runDays cfg s days).writes, p ∉ fs0) ∧
       (runDays cfg s days).writes.Nodup) := by
  induction days with
  | nil => intro s fs0 h1 h2 h3; exact ⟨h1, h2, h3⟩
  | cons d rest ih =>
    intro s fs0 h1 h2 h3
    have hstep : (processDay cfg s d).files = fs0 ++ (processDay cfg s d).writes ∧
        (∀ p ∈ (processDay cfg s d).writes, p ∉ fs0) ∧
        (processDay cfg s d).writes.Nodup := by
      by_cases h : csvPath cfg.outdir cfg.ticker d ∈ s.files
      · rw [processDay_skip cfg s d h]; exact ⟨h1, h2, h3⟩
      · cases hfd : fetch_day (cfg.env d) with
        | error e =>
          rw [processDay_error cfg s d e h hfd]
          exact ⟨by simpa using h1, by simpa using h2, by simpa using h3⟩
        | ok df =>
          cases hdf : df.isEmpty with
          | true =>
            rw [processDay_ok_empty cfg s d df h hfd hdf]
            exact ⟨by simpa using h1, by simpa using h2, by simpa using h3⟩
          | false =>
            rw [processDay_ok_write cfg s d df h hfd hdf]
            refine ⟨?_, ?_, ?_⟩
            · simp [h1, List.append_assoc]
            · intro p hp
              simp only [rate_gate_writes] at hp
              rcases List.mem_append.mp hp with hp | hp
              · exact h2 p hp
              · have hpe : p = csvPath cfg.outdir cfg.ticker d :=
                  List.mem_singleton.mp hp
                subst hpe
                intro hin
                exact h (h1 ▸ List.mem_append_left _ hin)
            · simp only [rate_gate_writes]
              refine List.Nodup.append h3 (List.nodup_singleton _) ?_
              intro p hp hq
              have hpe : p = csvPath cfg.outdir cfg.ticker d :=
                List.mem_singleton.mp hq
              subst hpe
              exact h (h1 ▸ List.mem_append_right _ hp)
    exact ih (processDay cfg s d) fs0 hstep.1 hstep.2.1 hstep.2.2

/-- C7: writes only ever create new files. In any run, every written path
was absent from the initial filesystem, no path is written twice, and the
final filesystem is the initial one plus exactly the writes; a second run
started on the first run's filesystem writes no path the first run left on
disk — so an existing output file is never overwritten, within a run or by
a later run. -/
theorem C7_writes_never_overwrite (ticker : String) (start stop : Nat)
    (outdir : String) (env1 env2 : String → HttpResponse)
    (fs0 : List String) (t0 t1 : ℚ) :
    ((main_run ticker start stop outdir env1 fs0 t0).files =
       fs0 ++ (main_run ticker start stop outdir env1 fs0 t0).writes) ∧
    (∀ p ∈ (main_run ticker start stop outdir env1 fs0 t0).writes, p ∉ fs0) ∧
    (main_run ticker start stop outdir env1 fs0 t0).writes.Nodup ∧
    (∀ p ∈ (main_run ticker start stop outdir env2
        (main_run ticker start stop outdir env1 fs0 t0).files t1).writes,
      p ∉ (main_run ticker start stop outdir env1 fs0 t0).files) := by
  have h1 := runDays_write_inv ⟨ticker, outdir, env1⟩ (daterange start stop)
    (initState fs0 t0) fs0 (by simp [initState]) (by simp [initState])
    (by simp [initState])
  refine ⟨h1.1, h1.2.1, h1.2.2, ?_⟩
  have h2 := runDays_write_inv ⟨ticker, outdir, env2⟩ (daterange start stop)
    (initState (main_run ticker start stop outdir env1 fs0 t0).files t1)
    (main_run ticker start stop outdir env1 fs0 t0).files
    (by simp [initState]) (by simp [initState]) (by simp [initState])
  exact h2.2.1

/-! ## Claim C8 -/

/-- C8: on a day whose fetch raises an error, the orchestrator logs exactly
one warning carrying the day and the error detail, writes no file (the
filesystem and write trace are unchanged), does not abort, and continues
with the remaining days. -/
theorem C8_error_warn_continue (cfg : Config) (s : OrchState) (day : String)
    (e : FetchError) (rest : List String)
    (hnot : csvPath cfg.outdir cfg.ticker day ∉ s.files)
    (herr : fetch_day (cfg.env day) = .error e) :
    (processDay cfg s day).files = s.files ∧
    (processDay cfg s day).writes = s.writes ∧
    (processDay cfg s day).log = s.log ++ [.warn day e] ∧
    runDays cfg s (day :: rest) = runDays cfg (processDay cfg s day) rest := by
  refine ⟨?_, ?_, ?_, rfl⟩ <;> rw [processDay_error cfg s day e hnot herr]
  · simp
  · simp

/-- Witness for C8: a 429 response for the one requested day. -/
theorem C8_error_warn_continue_witness :
    (csvPath "." "SPY" "1970-01-05" ∉ (initState [] 0).files ∧
     fetch_day (env429 "1970-01-05") = .error (.httpError 429)) ∧
    ((processDay ⟨"SPY", ".", env429⟩ (initState [] 0) "1970-01-05").files =
       (initState [] 0).files ∧
     (processDay ⟨"SPY", ".", env429⟩ (initState [] 0) "1970-01-05").writes =
       (initState [] 0).writes ∧
     (processDay ⟨"SPY", ".", env429⟩ (initState [] 0) "1970-01-05").log =
       (initState [] 0).log ++ [.warn "1970-01-05" (.httpError 429)] ∧
     runDays ⟨"SPY", ".", env429⟩ (initState [] 0) ["1970-01-05", "1970-01-06"] =
       runDays ⟨"SPY", ".", env429⟩
         (processDay ⟨"SPY", ".", env429⟩ (initState [] 0) "1970-01-05")
         ["1970-01-06"]) :=
  ⟨⟨by decide, rfl⟩,
    C8_error_warn_continue ⟨"SPY", ".", env429⟩ (initState [] 0) "1970-01-05"
      (.httpError 429) ["1970-01-06"] (by decide) rfl⟩

/-! ## Claim C9 -/

/-- C9: two ticker strings that agree after replacing `:` with `_` (such as
`I:SPX` and `I_SPX`) yield the same output path for the same day, so when
the file produced under one ticker exists, a run for the other ticker skips
that day (logs a skip, makes no network call). -/
theorem C9_sanitized_ticker_collision (t1 t2 outdir day : String)
    (env : String → HttpResponse) (s : OrchState)
    (_hne : t1 ≠ t2)
    (hsan : sanitizeTicker t1 = sanitizeTicker t2)
    (hmem : csvPath outdir t1 day ∈ s.files) :
    csvPath outdir t1 day = csvPath outdir t2 day ∧
    processDay ⟨t2, outdir, env⟩ s day =
      { s with log := s.log ++ [.skip (csvPath outdir t2 day)] } ∧
    (processDay ⟨t2, outdir, env⟩ s day).calls = s.calls := by
  have hpath : csvPath outdir t1 day = csvPath outdir t2 day := by
    unfold csvPath; rw [hsan]
  have hmem2 : csvPath outdir t2 day ∈ s.files := hpath ▸ hmem
  have hskip := processDay_skip ⟨t2, outdir, env⟩ s day hmem2
  exact ⟨hpath, hskip, by rw [hskip]⟩

/-- Witness for C9 at the spec's example pair `I:SPX` / `I_SPX`. -/
theorem C9_sanitized_ticker_collision_witness :
    ("I:SPX" ≠ "I_SPX" ∧
     sanitizeTicker "I:SPX" = sanitizeTicker "I_SPX" ∧
     csvPath "." "I:SPX" "1970-01-05" ∈
       (initState [csvPath "." "I:SPX" "1970-01-05"] 0).files) ∧
    (csvPath "." "I:SPX" "1970-01-05" = csvPath "." "I_SPX" "1970-01-05" ∧
     processDay ⟨"I_SPX", ".", env429⟩
         (initState [csvPath "." "I:SPX" "1970-01-05"] 0) "1970-01-05" =
       { initState [csvPath "." "I:SPX" "1970-01-05"] 0 with
         log := (initState [csvPath "." "I:SPX" "1970-01-05"] 0).log ++
           [.skip (csvPath "." "I_SPX" "1970-01-05")] } ∧
     (processDay ⟨"I_SPX", ".", env429⟩
         (initState [csvPath "." "I:SPX" "1970-01-05"] 0) "1970-01-05").calls =
       (initState [csvPath "." "I:SPX" "1970-01-05"] 0).calls) :=
  ⟨⟨by decide, by decide, by decide⟩,
    C9_sanitized_ticker_collision "I:SPX" "I_SPX" "." "1970-01-05" env429
      (initState [csvPath "." "I:SPX" "1970-01-05"] 0)
      (by decide) (by decide) (by decide)⟩

/-! ## Claim C2 (corrected) -/

/-- C2 counterexample: for the one permitted fetch of this run the provider
answers HTTP 429, so `fetch_day` raises; the request is dispatched (one
network call) but the `continue` of line 106 skips the
`reqs_in_window += 1` of line 114: the count stays 0 instead of becoming 1
as the claim requires. -/
theorem C2_counterexample_error_not_counted :
    (main_run "SPY" 4 4 "." env429 [] 0).calls.length = 1 ∧
    (main_run "SPY" 4 4 "." env429 [] 0).log =
      [.warn "1970-01-05" (.httpError 429)] ∧
    ¬ (main_run "SPY" 4 4 "." env429 [] 0).reqs_in_window = 0 + 1 := by
  exact ⟨by decide, by decide, by decide⟩

/-- C2 amended: a permitted fetch that returns a frame (successful or
empty-result) increments the window count by exactly one over its value at
dispatch (after the gate); a permitted fetch that raises leaves the count
unchanged. -/
theorem C2_count_increment_amended (cfg : Config) (s : OrchState) (day : String)
    (hnot : csvPath cfg.outdir cfg.ticker day ∉ s.files) :
    (∀ df : DayResult, fetch_day (cfg.env day) = .ok df →
      (processDay cfg s day).reqs_in_window = (rate_gate s).reqs_in_window + 1) ∧
    (∀ e : FetchError, fetch_day (cfg.env day) = .error e →
      (processDay cfg s day).reqs_in_window = (rate_gate s).reqs_in_window) := by
  constructor
  · intro df hfd
    cases hdf : df.isEmpty with
    | true => rw [processDay_ok_empty cfg s day df hnot hfd hdf]
    | false => rw [processDay_ok_write cfg s day df hnot hfd hdf]
  · intro e hfd
    rw [processDay_error cfg s day e hnot hfd]

/-- Witness for the amended C2 at a concrete success and a concrete
failure. -/
theorem C2_count_increment_amended_witness :
    (csvPath "." "SPY" "1970-01-05" ∉ (initState [] 0).files) ∧
    (processDay ⟨"SPY", ".", envOK⟩ (initState [] 0) "1970-01-05").reqs_in_window =
      (rate_gate (initState [] 0)).reqs_in_window + 1 ∧
    (processDay ⟨"SPY", ".", env429⟩ (initState [] 0) "1970-01-05").reqs_in_window =
      (rate_gate (initState [] 0)).reqs_in_window :=
  ⟨by decide,
   (C2_count_increment_amended ⟨"SPY", ".", envOK⟩ (initState [] 0) "1970-01-05"
     (by decide)).1 _ rfl,
   (C2_count_increment_amended ⟨"SPY", ".", env429⟩ (initState [] 0) "1970-01-05"
     (by decide)).2 (.httpError 429) rfl⟩

/-! ## Claim C1 (corrected): rate limiting -/

theorem rate_gate_of_ne_five (s : OrchState) (h5 : s.reqs_in_window ≠ 5) :
    rate_gate s = s := by
  unfold rate_gate
  rw [if_neg h5]

theorem rate_gate_of_five (s : OrchState) (hA : s.now = s.window_start)
    (h5 : s.reqs_in_window = 5) :
    rate_gate s = { s with now := s.window_start + (60 + 1 / 10),
                           window_start := s.window_start + (60 + 1 / 10),
                           reqs_in_window := 0 } := by
  unfold rate_gate
  rw [if_pos h5]
  dsimp only
  rw [hA]
  rw [if_pos (by norm_num : (0 : ℚ) < 60 - (s.window_start - s.window_start))]
  have harith : s.window_start + (60 - (s.window_start - s.window_start) + 1 / 10) =
      s.window_start + (60 + 1 / 10) := by ring
  simp only [harith]

/-- The invariant maintained by every run in which no permitted fetch
raises: the model clock advances only in `time.sleep`, so within a rate
window every dispatch happens at the window's start; calls of distinct
windows are at least 60 seconds apart; at most 5 calls share a window; and
a call that fills a window (post-gate count 4) is followed, if at all, only
at or after 60 seconds past that window's start. -/
structure RateInv (s : OrchState) : Prop where
  now_eq : s.now = s.window_start
  reqs_le : s.reqs_in_window ≤ 5
  old_calls : ∀ c ∈ s.calls, c.time = s.window_start ∨ c.time + 60 ≤ s.window_start
  count_cur : s.calls.countP (fun c => decide (c.time = s.window_start)) =
    s.reqs_in_window
  sep : ∀ c ∈ s.calls, ∀ c2 ∈ s.calls,
    c.time = c2.time ∨ c.time + 60 ≤ c2.time ∨ c2.time + 60 ≤ c.time
  window_bound : ∀ t : ℚ,
    s.calls.countP (fun c => decide (t ≤ c.time ∧ c.time < t + 60)) ≤ 5
  last_call : ∀ c : CallRec, s.calls.getLast? = some c →
    c.winStart = s.window_start ∧ c.cnt + 1 = s.reqs_in_window
  delay : List.Chain' (fun c c2 : CallRec => c.cnt = 4 → c.winStart + 60 ≤ c2.time)
    s.calls

theorem rateInv_init (fs0 : List String) (t0 : ℚ) : RateInv (initState fs0 t0) := by
  refine ⟨rfl, by simp [initState], ?_, ?_, ?_, ?_, ?_, ?_⟩
  · intro c hc; simp [initState] at hc
  · simp [initState]
  · intro c hc; simp [initState] at hc
  · intro t; simp [initState]
  · intro c hc; simp [initState] at hc
  · simp [initState]

theorem processDay_ok_fields (cfg : Config) (s : OrchState) (day : String)
    (df : DayResult)
    (h : csvPath cfg.outdir cfg.ticker day ∉ s.files)
    (hfd : fetch_day (cfg.env day) = .ok df) :
    (processDay cfg s day).reqs_in_window = (rate_gate s).reqs_in_window + 1 ∧
    (processDay cfg s day).window_start = (rate_gate s).window_start ∧
    (processDay cfg s day).now = (rate_gate s).now ∧
    (processDay cfg s day).calls =
      s.calls ++ [⟨(rate_gate s).now, day, (rate_gate s).window_start,
        (rate_gate s).reqs_in_window⟩] := by
  cases hdf : df.isEmpty with
  | true =>
    rw [processDay_ok_empty cfg s day df h hfd hdf]
    exact ⟨rfl, rfl, rfl, rfl⟩
  | false =>
    rw [processDay_ok_write cfg s day df h hfd hdf]
    exact ⟨rfl, rfl, rfl, rfl⟩

theorem rate_gate_fields_of_five (s : OrchState) (hA : s.now = s.window_start)
    (h5 : s.reqs_in_window = 5) :
    (rate_gate s).window_start = s.window_start + (60 + 1 / 10) ∧
    (rate_gate s).now = s.window_start + (60 + 1 / 10) ∧
    (rate_gate s).reqs_in_window = 0 := by
  rw [rate_gate_of_five s hA h5]
  exact ⟨rfl, rfl, rfl⟩

/-- The ghost record of the one network call a non-skipped iteration
dispatches, with the post-gate window state at dispatch time. -/
def dispatchCall (s : OrchState) (day : String) : CallRec :=
  ⟨(rate_gate s).now, day, (rate_gate s).window_start,
    (rate_gate s).reqs_in_window⟩

theorem rateInv_step (cfg : Config) (s : OrchState) (day : String)
    (hs : RateInv s) (hok : (fetch_day (cfg.env day)).isOk = true) :
    RateInv (processDay cfg s day) := by
  by_cases hskip : csvPath cfg.outdir cfg.ticker day ∈ s.files
  · rw [processDay_skip cfg s day hskip]
    exact ⟨hs.now_eq, hs.reqs_le, hs.old_calls, hs.count_cur, hs.sep,
      hs.window_bound, hs.last_call, hs.delay⟩
  · cases hfd : fetch_day (cfg.env day) with
    | error e => rw [hfd] at hok; simp [Except.isOk, Except.toBool] at hok
    | ok df =>
      obtain ⟨hreqs, hws, hnow, hcalls⟩ :=
        processDay_ok_fields cfg s day df hskip hfd
      have hcalls2 : (processDay cfg s day).calls =
          s.calls ++ [dispatchCall s day] := hcalls
      have hgA : (rate_gate s).now = (rate_gate s).window_start := by
        by_cases h5 : s.reqs_in_window = 5
        · rw [(rate_gate_fields_of_five s hs.now_eq h5).2.1,
            (rate_gate_fields_of_five s hs.now_eq h5).1]
        · rw [rate_gate_of_ne_five s h5]; exact hs.now_eq
      have hg4 : (rate_gate s).reqs_in_window ≤ 4 := by
        by_cases h5 : s.reqs_in_window = 5
        · rw [(rate_gate_fields_of_five s hs.now_eq h5).2.2]; omega
        · rw [rate_gate_of_ne_five s h5]
          have := hs.reqs_le; omega
      have hgB : ∀ c ∈ s.calls,
          c.time = (rate_gate s).window_start ∨
          c.time + 60 ≤ (rate_gate s).window_start := by
        intro c hc
        by_cases h5 : s.reqs_in_window = 5
        · rw [(rate_gate_fields_of_five s hs.now_eq h5).1]
          right
          rcases hs.old_calls c hc with h | h
          · rw [h]; linarith [show (0:ℚ) ≤ 1 / 10 by norm_num]
          · linarith [show (0:ℚ) ≤ 1 / 10 by norm_num]
        · rw [rate_gate_of_ne_five s h5]; exact hs.old_calls c hc
      have hgC : s.calls.countP
            (fun c => decide (c.time = (rate_gate s).window_start)) =
          (rate_gate s).reqs_in_window := by
        by_cases h5 : s.reqs_in_window = 5
        · rw [(rate_gate_fields_of_five s hs.now_eq h5).1,
            (rate_gate_fields_of_five s hs.now_eq h5).2.2]
          apply List.countP_eq_zero.mpr
          intro c hc
          simp only [decide_eq_true_eq]
          intro heq
          rcases hs.old_calls c hc with h | h
          · rw [heq] at h; linarith [show (0:ℚ) < 1 / 10 by norm_num]
          · rw [heq] at h; linarith [show (0:ℚ) < 1 / 10 by norm_num]
        · rw [rate_gate_of_ne_five s h5]; exact hs.count_cur
      have hgDelay5 : s.reqs_in_window = 5 →
          s.window_start + 60 ≤ (rate_gate s).window_start := by
        intro h5
        rw [(rate_gate_fields_of_five s hs.now_eq h5).1]
        linarith [show (0:ℚ) ≤ 1 / 10 by norm_num]
      refine ⟨?_, ?_, ?_, ?_, ?_, ?_, ?_, ?_⟩
      · rw [hnow, hws]; exact hgA
      · rw [hreqs]; omega
      · rw [hcalls2, hws]
        intro c hc
        rcases List.mem_append.mp hc with hcold | hcnew
        · exact hgB c hcold
        · have hce : c = dispatchCall s day := List.mem_singleton.mp hcnew
          subst hce
          exact Or.inl hgA
      · rw [hcalls2, hws, hreqs, List.countP_append]
        have h1 : List.countP
            (fun c => decide (c.time = (rate_gate s).window_start))
            [dispatchCall s day] = 1 := by
          simp [List.countP_cons, dispatchCall, hgA]
        rw [h1, hgC]
      · rw [hcalls2]
        intro c hc c2 hc2
        rcases List.mem_append.mp hc with hcold | hcnew <;>
          rcases List.mem_append.mp hc2 with hc2old | hc2new
        · exact hs.sep c hcold c2 hc2old
        · have hce : c2 = dispatchCall s day := List.mem_singleton.mp hc2new
          subst hce
          rcases hgB c hcold with h | h
          · exact Or.inl (by rw [h]; exact hgA.symm)
          · refine Or.inr (Or.inl ?_)
            show c.time + 60 ≤ (rate_gate s).now
            rw [hgA]; exact h
        · have hce : c = dispatchCall s day := List.mem_singleton.mp hcnew
          subst hce
          rcases hgB c2 hc2old with h | h
          · exact Or.inl (by rw [h]; exact hgA)
          · refine Or.inr (Or.inr ?_)
            show c2.time + 60 ≤ (rate_gate s).now
            rw [hgA]; exact h
        · have hce : c = dispatchCall s day := List.mem_singleton.mp hcnew
          have hce2 : c2 = dispatchCall s day := List.mem_singleton.mp hc2new
          subst hce; subst hce2
          exact Or.inl rfl
      · intro t
        rw [hcalls2, List.countP_append]
        by_cases hin : t ≤ (rate_gate s).now ∧ (rate_gate s).now < t + 60
        · have hmono : s.calls.countP
              (fun c => decide (t ≤ c.time ∧ c.time < t + 60)) ≤
              s.calls.countP
                (fun c => decide (c.time = (rate_gate s).window_start)) := by
            apply List.countP_mono_left
            intro c hc hcw
            simp only [decide_eq_true_eq] at hcw ⊢
            rcases hgB c hc with h | h
            · exact h
            · exfalso
              have h2 := hin.2
              rw [hgA] at h2
              have h1 := hcw.1
              linarith
          have hone : List.countP
              (fun c => decide (t ≤ c.time ∧ c.time < t + 60))
              [dispatchCall s day] ≤ 1 := by
            simp only [List.countP_cons, List.countP_nil]
            split <;> omega
          rw [hgC] at hmono
          omega
        · have hzero : List.countP
              (fun c => decide (t ≤ c.time ∧ c.time < t + 60))
              [dispatchCall s day] = 0 := by
            simp only [List.countP_cons, List.countP_nil, Nat.zero_add]
            have : ¬ (t ≤ (dispatchCall s day).time ∧
                (dispatchCall s day).time < t + 60) := hin
            simp [this]
          rw [hzero]
          have := hs.window_bound t
          omega
      · intro c hc
        rw [hcalls2, List.getLast?_concat] at hc
        have hce : dispatchCall s day = c := by
          injection hc
        subst hce
        constructor
        · rw [hws]; rfl
        · rw [hreqs]; rfl
      · rw [hcalls2]
        refine List.chain'_append.mpr ⟨hs.delay, List.chain'_singleton _, ?_⟩
        intro x hx y hy h4
        have hy2 : y = dispatchCall s day := by
          simp only [List.head?_cons, Option.mem_def, Option.some.injEq] at hy
          exact hy.symm
        have hx2 : s.calls.getLast? = some x := Option.mem_def.mp hx
        obtain ⟨hxw, hxcnt⟩ := hs.last_call x hx2
        have h5 : s.reqs_in_window = 5 := by omega
        have hD5 := hgDelay5 h5
        subst hy2
        show x.winStart + 60 ≤ (rate_gate s).now
        rw [hxw, hgA]
        exact hD5

theorem rateInv_run (cfg : Config) (days : List String) :
    ∀ s : OrchState, RateInv s →
      (∀ d ∈ days, (fetch_day (cfg.env d)).isOk = true) →
      RateInv (runDays cfg s days) := by
  induction days with
  | nil => intro s hs _; exact hs
  | cons d rest ih =>
    intro s hs hok
    exact ih (processDay cfg s d)
      (rateInv_step cfg s d hs (hok d (List.mem_cons_self d rest)))
      (fun d2 hd2 => hok d2 (List.mem_cons_of_mem d hd2))

/-- C1 counterexample: when every response is HTTP 429, every fetch raises,
the `continue` at line 106 skips the count increment at line 114, and the
gate of lines 95-100 never fires: over six trading days (1970-01-05 through
1970-01-12) six requests are dispatched at the same instant 0, so the
60-second window starting at the first request holds 6 > 5 dispatched
requests and the sixth attempt was not suspended at all. -/
theorem C1_counterexample_burst_of_errors :
    (main_run "SPY" 4 11 "." env429 [] 0).calls.countP
        (fun c => decide ((0 : ℚ) ≤ c.time ∧ c.time < 0 + 60)) = 6 ∧
    (main_run "SPY" 4 11 "." env429 [] 0).calls.map (fun c => c.time) =
      [0, 0, 0, 0, 0, 0] :=
  ⟨by simp only [show (0 : ℚ) + 60 = 60 from by norm_num]; decide, by decide⟩

/-- C1 amended: provided every permitted fetch of the run returns without
raising, the rate limiter is effective: any 60-second window of wall-clock
time (in particular the one starting at the first request after a window
reset) contains at most 5 dispatched requests, and a request that follows a
window's fifth request (post-gate count 4) is dispatched no earlier than 60
seconds after that window's start. -/
theorem C1_rate_window_amended (ticker : String) (start stop : Nat)
    (outdir : String) (env : String → HttpResponse) (fs0 : List String)
    (t0 t : ℚ)
    (hok : ∀ d ∈ daterange start stop, (fetch_day (env d)).isOk = true) :
    (main_run ticker start stop outdir env fs0 t0).calls.countP
        (fun c => decide (t ≤ c.time ∧ c.time < t + 60)) ≤ 5 ∧
    List.Chain' (fun c c2 : CallRec => c.cnt = 4 → c.winStart + 60 ≤ c2.time)
      (main_run ticker start stop outdir env fs0 t0).calls := by
  have h := rateInv_run ⟨ticker, outdir, env⟩ (daterange start stop)
    (initState fs0 t0) (rateInv_init fs0 t0) hok
  exact ⟨h.window_bound t, h.delay⟩

/-- Witness for the amended C1: a run over six trading days whose fetches
all succeed. -/
theorem C1_rate_window_amended_witness :
    (∀ d ∈ daterange 4 11, (fetch_day (envOK d)).isOk = true) ∧
    ((main_run "SPY" 4 11 "." envOK [] 0).calls.countP
        (fun c => decide ((0 : ℚ) ≤ c.time ∧ c.time < 0 + 60)) ≤ 5 ∧
     List.Chain' (fun c c2 : CallRec => c.cnt = 4 → c.winStart + 60 ≤ c2.time)
       (main_run "SPY" 4 11 "." envOK [] 0).calls) :=
  ⟨by decide,
    C1_rate_window_amended "SPY" 4 11 "." envOK [] 0 0 (by decide)⟩
